import Mathlib

/-!
Verification of the gym-electric-motor drive-simulation engine.

This development shallowly embeds the parts of the repository that the
claims are about:

* `physical_systems/scml_system.py` — the `SCMLSystem` engine
  (construction checks, `simulate`, `reset`, `_system_equation`,
  `_system_jacobian`, `seed`);
* `core/electric_motor_environment.py` — the orchestration environment
  (`step`, `reset`, `seed`, the `done` lifecycle flag);
* `converters/finite_control_set/finite_one_quadrant_converter.py` —
  the single-quadrant finite converter.

Physical quantities are embedded as rationals (`ℚ`) and numpy arrays as
`List ℚ`, so every definition is executable and the theorems can be
evaluated on concrete inputs.  Components are records of the functions
the engine actually calls on them, translated from the call sites in the
source.
-/

namespace GymElectricMotor

/-! ## List helpers (numpy slice assignment) -/

/-- Writes the values `vs` into the list `buf` starting at position `start`,
one element at a time, mirroring the numpy slice assignment
`buf[start : start + len(vs)] = vs`. -/
def setSlice (buf : List ℚ) (start : Nat) (vs : List ℚ) : List ℚ :=
  match vs with
  | [] => buf
  | v :: rest => setSlice (buf.set start v) (start + 1) rest

/-- Elementwise division of a raw observation by the limits vector,
`system_observation / self._limits` in numpy. -/
def normalizeObs (obs limits : List ℚ) : List ℚ :=
  List.zipWith (fun a b => a / b) obs limits

/-- Elementwise multiplication, used to state the round-trip
`rawObservation == normalizedObservation * limitsVector`. -/
def mulElems (obs limits : List ℚ) : List ℚ :=
  List.zipWith (fun a b => a * b) obs limits

/-! ## Component role records

Each record holds exactly the data and functions that `SCMLSystem` reads
off the component at its call sites in `scml_system.py`. -/

/-- The voltage-supply role, as consumed by `SCMLSystem`
(`supply_shape`, `get_u_sup`, `get_observation`, `limits`). -/
structure VoltageSupply where
  supply_shape : Nat
  get_u_sup : ℚ → List ℚ → List ℚ
  get_observation : List ℚ
  limits : List ℚ

/-- The power-electronic-converter role, as consumed by `SCMLSystem`
(`supply_shape`, `output_shape`, `set_action`, `convert`, `i_sup`,
`get_observation`, `limits`).  Actions are embedded as integers, which
covers the discrete action spaces of the finite converters. -/
structure PowerElectronicConverter where
  supply_shape : Nat
  output_shape : Nat
  set_action : Int → ℚ → List ℚ
  convert : ℚ → List ℚ → List ℚ → List ℚ
  i_sup : List ℚ → List ℚ
  get_observation : List ℚ
  limits : List ℚ

/-- The electric-motor role, as consumed by `SCMLSystem`.
`electrical_ode` has the signature of the call site
`self._electric_motor.electrical_ode(motor_state, omega)`; the input
voltage previously stored via `set_u_in` is part of the closure.
`electrical_jacobian` returns the triple
`(motor_jac, el_state_over_omega, torque_over_el_state)`. -/
structure ElectricMotor where
  ode_size : Nat
  input_shape : Nat
  torque_shape : Nat
  HAS_JACOBIAN : Bool
  i_in : ℚ → List ℚ → List ℚ
  electrical_ode : List ℚ → ℚ → List ℚ
  torque : List ℚ → ℚ
  electrical_jacobian : List ℚ → ℚ → List (List ℚ) × List ℚ × List ℚ
  get_observation : List ℚ → List ℚ
  limits : List ℚ
  j_rotor : ℚ

/-- The mechanical-load role, as consumed by `SCMLSystem`.
`mechanical_jacobian` returns the pair `(load_jac, load_over_torque)`. -/
structure MechanicalLoad where
  ode_size : Nat
  speed_shape : Nat
  HAS_JACOBIAN : Bool
  get_omega : List ℚ → ℚ
  mechanical_ode : ℚ → List ℚ → ℚ → List ℚ
  mechanical_jacobian : ℚ → List ℚ → ℚ → List (List ℚ) × List ℚ
  get_observation : List ℚ → List ℚ
  limits : List ℚ

/-! ## The single-quadrant finite converter

`FiniteOneQuadrantConverter` from
`converters/finite_control_set/finite_one_quadrant_converter.py`.
Its only per-instance state is `self._current_action`, a natural number
from the action space `Discrete(2)` stored by the base class
`set_action`. -/

/-- State of a `FiniteOneQuadrantConverter`: the switching action most
recently stored by `set_action` (`0` = transistor off, `1` = on). -/
structure FiniteOneQuadrantConverter where
  current_action : Nat

/-- `FiniteOneQuadrantConverter.convert(t, i_out, u_sup)`:
`[self._current_action * u_sup[0] if i_out[0] >= 0 else u_sup[0]]`. -/
def FiniteOneQuadrantConverter.convert (c : FiniteOneQuadrantConverter)
    (_t : ℚ) (i_out u_sup : List ℚ) : List ℚ :=
  [if 0 ≤ i_out.headD 0 then (c.current_action : ℚ) * u_sup.headD 0 else u_sup.headD 0]

/-- `FiniteOneQuadrantConverter.i_sup(i_out)`:
`i_out[0] if self._current_action == 1 else 0`. -/
def FiniteOneQuadrantConverter.i_sup (c : FiniteOneQuadrantConverter)
    (i_out : List ℚ) : ℚ :=
  if c.current_action = 1 then i_out.headD 0 else 0

/-! ## The SCML physical-system engine (`scml_system.py`) -/

/-- The components of one `SCMLSystem` instance together with the step
time `tau`, as stored by `SCMLSystem.__init__`. -/
structure SCMLSystem where
  converter : PowerElectronicConverter
  electric_motor : ElectricMotor
  mechanical_load : MechanicalLoad
  supply : VoltageSupply
  tau : ℚ

/-- The load segment of a combined ODE state vector: the slice
`self._load_ode_slice = slice(0, load.ode_size)` set in
`SCMLSystem.__init__`.  `simulate` reads this slice through
the attribute `self._load_state_slice`; modelled from the spec: the
spec defines the load segment as indices `0 .. load.ode_size` of the
flat state vector, and `simulate` splits the integrated state into that
segment. -/
def loadSeg (n_load : Nat) (state : List ℚ) : List ℚ :=
  state.take n_load

/-- The motor segment of a combined ODE state vector: the slice
`self._motor_ode_slice = slice(load.ode_size, load.ode_size + motor.ode_size)`
set in `SCMLSystem.__init__`.  `simulate` reads this slice through the
attribute `self._motor_state_slice`; modelled from the spec: the spec
defines the motor segment as the indices following the load segment. -/
def motorSeg (n_load n_motor : Nat) (state : List ℚ) : List ℚ :=
  (state.drop n_load).take n_motor

/-- The limits vector of the engine: the `SCMLSystem.limits` property
concatenates the per-component `limits` arrays over
`self._scml_components = (load, motor, converter, supply)` in that
order.  In the source the concatenation is computed lazily on first
property access and cached in `self._limits`; `simulate` and `reset`
divide by that cached array, whose populated value this definition
embeds. -/
def SCMLSystem.limits (sys : SCMLSystem) : List ℚ :=
  sys.mechanical_load.limits ++ sys.electric_motor.limits
    ++ sys.converter.limits ++ sys.supply.limits

/-- The raw (un-normalized) system observation assembled by `simulate`
and `reset`: `np.concatenate((load.get_observation(load_state),
motor.get_observation(motor_state), converter.get_observation(),
supply.get_observation()))`. -/
def SCMLSystem.rawObservation (sys : SCMLSystem)
    (load_state motor_state : List ℚ) : List ℚ :=
  sys.mechanical_load.get_observation load_state
    ++ sys.electric_motor.get_observation motor_state
    ++ sys.converter.get_observation
    ++ sys.supply.get_observation

/-- `SCMLSystem._system_equation(t, state)`.  The source writes the two
derivative segments into the preallocated buffer
`self._system_derivative` (motor slice first, then load slice) and
returns the buffer; since both writes together cover the whole buffer
whenever the component derivatives have their declared sizes, the
buffer is embedded as freshly zeroed. -/
def SCMLSystem.system_equation (sys : SCMLSystem) (t : ℚ) (state : List ℚ) :
    List ℚ :=
  let n_load := sys.mechanical_load.ode_size
  let n_motor := sys.electric_motor.ode_size
  let motor_state := motorSeg n_load n_motor state
  let load_state := loadSeg n_load state
  let omega := sys.mechanical_load.get_omega load_state
  let buf0 := List.replicate (n_load + n_motor) (0 : ℚ)
  let buf1 := setSlice buf0 n_load (sys.electric_motor.electrical_ode motor_state omega)
  let torque := sys.electric_motor.torque motor_state
  setSlice buf1 0 (sys.mechanical_load.mechanical_ode t load_state torque)

/-- `SCMLSystem._system_jacobian(t, state)`, the routine captured into
the local `jac` in `__init__` (before the instance attribute of the
same name is re-assigned to a zero matrix) and handed to
`set_system_equation`.  The body computes `motor_state`, `load_state`,
`omega`, the motor jacobian triple, the torque and the load jacobian
pair, and then executes
`system_jac[:load_jac.shape[0], :load_jac.shape[1]] = load_jac`.
The name `system_jac` is never bound in the function body (the
preallocated buffer lives in the attribute `self._system_jacobian`),
and no module-level or builtin binding exists either, so CPython raises
a NameError at that statement on every invocation; the result is
embedded as `Except`.  The attribute `self._load_ode_idx` read on the
way is modelled from the spec as the load segment (the spec passes the
load state to the load jacobian). -/
def SCMLSystem.system_jacobian (sys : SCMLSystem) (t : ℚ) (state : List ℚ) :
    Except String (List (List ℚ)) :=
  let n_load := sys.mechanical_load.ode_size
  let n_motor := sys.electric_motor.ode_size
  let motor_state := motorSeg n_load n_motor state
  let load_state := loadSeg n_load state
  let omega := sys.mechanical_load.get_omega load_state
  let _jacTriple := sys.electric_motor.electrical_jacobian motor_state omega
  let torque := sys.electric_motor.torque motor_state
  let _jacPair := sys.mechanical_load.mechanical_jacobian t load_state torque
  Except.error "NameError: name system_jac is not defined"

/-- The mutable state of one `SCMLSystem` instance between calls:
`self._motor_state` / `self._load_state` (cached segments of the last
integrated state), the system time `self._t`, the step counter
`self._k`, the ODE-solver state `(y, t)` and the motor input voltage
stored by `set_u_in`. -/
structure SCMLDyn where
  motor_state : List ℚ
  load_state : List ℚ
  t : ℚ
  k : Nat
  solver_y : List ℚ
  solver_t : ℚ
  motor_u_in : List ℚ

/-- An ODE integrator: given the integration target time, the current
solver time, the motor input voltage currently set on the motor and the
current solver state vector, produce the integrated state vector.  This
abstracts `self._ode_solver.integrate(t)` running on the system
equation that was registered at construction. -/
def Integrator : Type := ℚ → ℚ → List ℚ → List ℚ → List ℚ

/-- One pass of the switching-time loop body of `SCMLSystem.simulate`:
`i_in = motor.i_in(t, self._motor_state)` (the stale motor segment from
the previous cycle — the cache is only refreshed after the loop),
`i_sup = converter.i_sup(i_in)`, `u_sup = supply.get_u_sup(self._t, i_sup)`
(cycle-start time), `u_in = converter.convert(solver.t, i_in, u_sup)`,
`motor.set_u_in(u_in)`, `ode_state = solver.integrate(t)`. -/
def SCMLSystem.simulateStep (sys : SCMLSystem) (integrate : Integrator)
    (d : SCMLDyn) (st : SCMLDyn) (t : ℚ) : SCMLDyn :=
  let i_in := sys.electric_motor.i_in t d.motor_state
  let i_sup := sys.converter.i_sup i_in
  let u_sup := sys.supply.get_u_sup d.t i_sup
  let u_in := sys.converter.convert st.solver_t i_in u_sup
  { st with
    motor_u_in := u_in
    solver_y := integrate t st.solver_t u_in st.solver_y
    solver_t := t }

/-- `SCMLSystem.simulate(action)`: build the switching-time list
`converter.set_action(action, self._t) + [self._t + self._tau]`, run the
integration loop over it, count the step (`self._count_step` advances
`k` by one and the system time by `tau`; modelled from the spec: the
engine produces exactly one externally visible transition of length
`tau` per control cycle), split the integrated state into the load and
motor segments, cache them, assemble the concatenated observation and
divide elementwise by the limits vector.  Returns the new engine state
and the normalized observation. -/
def SCMLSystem.simulate (sys : SCMLSystem) (integrate : Integrator)
    (d : SCMLDyn) (action : Int) : SCMLDyn × List ℚ :=
  let n_load := sys.mechanical_load.ode_size
  let n_motor := sys.electric_motor.ode_size
  let switching_times := sys.converter.set_action action d.t ++ [d.t + sys.tau]
  let dLoop := switching_times.foldl (sys.simulateStep integrate d) d
  let d2 : SCMLDyn :=
    { dLoop with
      k := d.k + 1
      t := d.t + sys.tau
      motor_state := motorSeg n_load n_motor dLoop.solver_y
      load_state := loadSeg n_load dLoop.solver_y }
  (d2, normalizeObs (sys.rawObservation d2.load_state d2.motor_state) sys.limits)

/-- `SCMLSystem.reset()`: reset the step counter and system time
(`PhysicalSystem.reset`; modelled from the spec: re-start the episode at
cycle zero), advance the random generator, reset every component, set
the solver initial value to `self.initial_ode_value` at the current
time, split the solver state into the load and motor segments, and emit
the same concatenated, limit-normalized observation as `simulate`.
`initial_value` embeds `self._initial_ode_value` (a zero vector of the
combined ODE size unless overwritten through the property setter). -/
def SCMLSystem.resetSystem (sys : SCMLSystem) (initial_value : List ℚ) :
    SCMLDyn × List ℚ :=
  let n_load := sys.mechanical_load.ode_size
  let n_motor := sys.electric_motor.ode_size
  let d : SCMLDyn :=
    { motor_state := motorSeg n_load n_motor initial_value
      load_state := loadSeg n_load initial_value
      t := 0
      k := 0
      solver_y := initial_value
      solver_t := 0
      motor_u_in := [] }
  (d, normalizeObs (sys.rawObservation d.load_state d.motor_state) sys.limits)

/-- The outcome of `SCMLSystem.__init__` relevant to solver
configuration: the constructed system, whether an analytic jacobian
function (rather than `None`) was handed to
`ode_solver.set_system_equation`, and whether the capability-degradation
warning `Jacobian Matrix is not provided for either the motor or the
load Model` was emitted. -/
structure SCMLInitResult where
  system : SCMLSystem
  jacobianPassed : Bool
  warningEmitted : Bool

/-- `SCMLSystem.__init__`.  The three shape assertions are checked in
source order and abort construction when violated (`AssertionError`).
Then `calc_jacobian` defaults to `motor.HAS_JACOBIAN and
load.HAS_JACOBIAN` when not given; `jac` is the bound method
`self._system_jacobian` exactly when `calc_jacobian` and both capability
flags hold, else `None`; a warning is emitted when `calc_jacobian`
holds but `jac` is `None`; finally
`ode_solver.set_system_equation(self._system_equation, jac)` is called.
Construction never aborts for jacobian reasons. -/
def SCMLSystem.init (converter : PowerElectronicConverter)
    (motor : ElectricMotor) (load : MechanicalLoad)
    (supply : VoltageSupply) (tau : ℚ) (calc_jacobian : Option Bool) :
    Except String SCMLInitResult :=
  if supply.supply_shape ≠ converter.supply_shape then
    Except.error "AssertionError: supply_shape"
  else if converter.output_shape ≠ motor.input_shape then
    Except.error "AssertionError: output_shape"
  else if motor.torque_shape ≠ load.speed_shape then
    Except.error "AssertionError: torque_shape"
  else
    let cj := calc_jacobian.getD (motor.HAS_JACOBIAN && load.HAS_JACOBIAN)
    let jacSome := cj && motor.HAS_JACOBIAN && load.HAS_JACOBIAN
    Except.ok
      { system := ⟨converter, motor, load, supply, tau⟩
        jacobianPassed := jacSome
        warningEmitted := cj && !jacSome }

/-- Returns `true` exactly on `Except.ok` results. -/
def exceptOk {α : Type} (e : Except String α) : Bool :=
  match e with
  | Except.ok _ => true
  | Except.error _ => false

/-! ## The orchestration environment (`electric_motor_environment.py`) -/

/-- The collaborators of one `ElectricMotorEnvironment`, abstracted as
the functions `step` and `reset` actually call on them.  The physical
system is folded into `physSimulate` / `physReset` over its state
vector (`simulate` returns the new normalized state vector). -/
structure Env where
  physSimulate : List ℚ → Int → List ℚ
  physReset : List ℚ
  getReference : List ℚ → List ℚ
  getReferenceObservation : List ℚ → List ℚ
  rewardFn : List ℚ → List ℚ → Nat → Int → ℚ → ℚ
  checkConstraints : List ℚ → ℚ

/-- The mutable state of one `ElectricMotorEnvironment`: the lifecycle
flag `self._done`, the physical state vector last returned by the
engine and the cycle counter `k`. -/
structure EnvDyn where
  done : Bool
  physState : List ℚ
  k : Nat

/-- The environment state right after `__init__`: line 176 sets
`self._done = True`, and no physical state has been produced yet. -/
def Env.initialDyn : EnvDyn :=
  { done := true, physState := [], k := 0 }

/-- What one completed `step` returns:
`(state, ref_next), reward, done, {}`. -/
structure StepResult where
  state : List ℚ
  ref_next : List ℚ
  reward : ℚ
  done : Bool

/-- `ElectricMotorEnvironment.reset()`: clears `self._done`, resets the
physical system, resets the reference generator against the new state
and returns `(state, reference_observation)`. -/
def Env.reset (env : Env) (_s : EnvDyn) : EnvDyn × (List ℚ × List ℚ) :=
  let state := env.physReset
  ({ done := false, physState := state, k := 0 },
    (state, env.getReferenceObservation state))

/-- `ElectricMotorEnvironment.step(action)`.  The first statement is
`assert not self._done, ...`: when the flag is set the call raises
before any computation, leaving the environment state untouched (the
returned `EnvDyn` is the input one).  Otherwise the engine simulates
one cycle, the reference, the violation degree and the reward are
computed from the new state, `self._done = violation_degree >= 1.0`,
and `((state, ref_next), reward, done, {})` is returned. -/
def Env.step (env : Env) (s : EnvDyn) (action : Int) :
    EnvDyn × Except String StepResult :=
  if s.done then
    (s, Except.error "A reset is required before the environment can perform further steps")
  else
    let state := env.physSimulate s.physState action
    let reference := env.getReference state
    let violation_degree := env.checkConstraints state
    let reward := env.rewardFn state reference s.k action violation_degree
    let doneFlag := decide ((1 : ℚ) ≤ violation_degree)
    let ref_next := env.getReferenceObservation state
    ({ done := doneFlag, physState := state, k := s.k + 1 },
      Except.ok
        { state := state, ref_next := ref_next, reward := reward, done := doneFlag })

/-! ## The seed hierarchy

`ElectricMotorEnvironment.seed` builds `np.random.SeedSequence(seed)`,
spawns one child sequence per component in the fixed order
`(physical_system, reference_generator, reward_function,
constraint_monitor, *callbacks)`, seeds every `RandomComponent` child
and returns `[sg.entropy]`.  `SCMLSystem.seed` adopts the received
child sequence and spawns one grandchild per role in the fixed order
`(supply, converter, motor, load, ode_solver)`. -/

/-- Modelled from the spec: numpy `SeedSequence` spawning, which is not
part of the inspected sources (`np.random.SeedSequence` and
`RandomComponent` live outside them).  Per the spec, the entropy of the
`i`-th spawned child is a pure, well-mixed function of the parent
entropy and the child index; the concrete mixing constants below stand
in for the hash-based derivation. -/
def spawnEntropy (parent i : Nat) : Nat :=
  (parent * 6364136223846793005 + (i + 1) * 1442695040888963407) % 2 ^ 64

/-- Modelled from the spec: `SeedSequence.spawn(n)` returns the `n`
children derived from the parent entropy at indices `0 .. n-1`. -/
def spawnKeys (parent n : Nat) : List Nat :=
  (List.range n).map (spawnEntropy parent)

/-- `SCMLSystem.seed`: the entropies derived for the five roles
`(supply, converter, motor, load, ode_solver)` from the engine child
entropy, via `self.seed_sequence.spawn(len(self._random_components))`. -/
def scmlChildEntropies (engineEntropy : Nat) : List Nat :=
  spawnKeys engineEntropy 5

/-- The full tree of entropies derived by one
`ElectricMotorEnvironment.seed` call: the root entropy, the engine
child entropy with its five role grandchildren, the entropies of the
reference generator, reward function and constraint monitor, and one
entropy per callback. -/
structure EnvSeedTree where
  root : Nat
  physicalEntropy : Nat
  physicalChildren : List Nat
  referenceGeneratorEntropy : Nat
  rewardFunctionEntropy : Nat
  constraintMonitorEntropy : Nat
  callbackEntropies : List Nat
deriving DecidableEq

/-- `ElectricMotorEnvironment.seed(seed)`: `SeedSequence(None)` draws
its entropy from the operating system (modelled by the explicit
`osEntropy` argument), `SeedSequence(n)` uses `n`; the children are
spawned in the fixed component order and the engine recursively derives
its role entropies.  The function returns the whole derivation tree;
the Python method returns `[sg.entropy]`, i.e. the `root` field. -/
def envSeed (seed : Option Nat) (osEntropy : Nat) (numCallbacks : Nat) :
    EnvSeedTree :=
  let root := seed.getD osEntropy
  let subs := spawnKeys root (4 + numCallbacks)
  { root := root
    physicalEntropy := subs.headD 0
    physicalChildren := scmlChildEntropies (subs.headD 0)
    referenceGeneratorEntropy := subs.getD 1 0
    rewardFunctionEntropy := subs.getD 2 0
    constraintMonitorEntropy := subs.getD 3 0
    callbackEntropies := subs.drop 4 }

/-! ## Concrete demonstration instances

Small, fully concrete components used to evaluate the theorems on
explicit inputs. -/

/-- A concrete supply delivering a constant voltage of 10 with limit 20. -/
def demoSupply : VoltageSupply :=
  { supply_shape := 1
    get_u_sup := fun _ _ => [10]
    get_observation := [10]
    limits := [20] }

/-- A concrete converter that passes the supply voltage through and
draws the output current, with limit 2. -/
def demoConverter : PowerElectronicConverter :=
  { supply_shape := 1
    output_shape := 1
    set_action := fun _ _ => []
    convert := fun _ _ u_sup => u_sup
    i_sup := fun i_out => i_out
    get_observation := [1]
    limits := [2] }

/-- A concrete one-dimensional motor whose electrical derivative is the
speed and whose torque is its state entry, with limit 4. -/
def demoMotor : ElectricMotor :=
  { ode_size := 1
    input_shape := 1
    torque_shape := 1
    HAS_JACOBIAN := true
    i_in := fun _ state => state
    electrical_ode := fun _ omega => [omega]
    torque := fun state => state.headD 0
    electrical_jacobian := fun _ _ => ([[1]], [1], [1])
    get_observation := fun state => state
    limits := [4]
    j_rotor := 1 }

/-- A concrete one-dimensional load whose speed is its state entry and
whose mechanical derivative is the torque, with limit 8. -/
def demoLoad : MechanicalLoad :=
  { ode_size := 1
    speed_shape := 1
    HAS_JACOBIAN := true
    get_omega := fun state => state.headD 0
    mechanical_ode := fun _ _ torque => [torque]
    mechanical_jacobian := fun _ _ _ => ([[1]], [1])
    get_observation := fun state => state
    limits := [8] }

/-- A copy of `demoLoad` that does not declare analytic-jacobian
support, exercising the capability-degradation path. -/
def demoLoadNoJac : MechanicalLoad :=
  { demoLoad with HAS_JACOBIAN := false }

/-- The engine composed from the four demo components with `tau = 1`. -/
def demoSystem : SCMLSystem :=
  { converter := demoConverter
    electric_motor := demoMotor
    mechanical_load := demoLoad
    supply := demoSupply
    tau := 1 }

/-- An integrator that leaves the state vector unchanged. -/
def demoIntegrator : Integrator := fun _ _ _ y => y

/-- A concrete engine state with load segment `[2]` and motor segment
`[1]`. -/
def demoDyn : SCMLDyn :=
  { motor_state := [1]
    load_state := [2]
    t := 0
    k := 0
    solver_y := [2, 1]
    solver_t := 0
    motor_u_in := [] }

/-- A concrete environment whose physical system returns its state
unchanged and whose violation degree is the first state entry. -/
def demoEnv : Env :=
  { physSimulate := fun state _ => state
    physReset := [1]
    getReference := fun state => state
    getReferenceObservation := fun state => state
    rewardFn := fun _ _ _ _ violation => violation
    checkConstraints := fun state => state.headD 0 }

/-! ## Helper lemmas -/

theorem setSlice_cons_succ (x : ℚ) (xs : List ℚ) (i : Nat) (vs : List ℚ) :
    setSlice (x :: xs) (i + 1) vs = x :: setSlice xs i vs := by
  induction vs generalizing x xs i with
  | nil => rfl
  | cons v rest ih =>
      simp only [setSlice, List.set]
      exact ih x (xs.set i v) (i + 1)

theorem setSlice_zero (ys vs : List ℚ) (h : vs.length ≤ ys.length) :
    setSlice ys 0 vs = vs ++ ys.drop vs.length := by
  induction vs generalizing ys with
  | nil => simp [setSlice]
  | cons v rest ih =>
      cases ys with
      | nil => simp at h
      | cons y ytl =>
          simp only [setSlice, List.set, List.length_cons, List.drop_succ_cons]
          rw [setSlice_cons_succ]
          simp only [List.cons_append, List.cons.injEq, true_and]
          exact ih ytl (by simpa using h)

theorem setSlice_append (xs ys vs : List ℚ) (h : vs.length ≤ ys.length) :
    setSlice (xs ++ ys) xs.length vs = xs ++ (vs ++ ys.drop vs.length) := by
  induction xs with
  | nil => simpa using setSlice_zero ys vs h
  | cons x xtl ih =>
      simp only [List.cons_append, List.length_cons]
      rw [setSlice_cons_succ, ih]

theorem mulElems_normalizeObs (a b : List ℚ) (hlen : a.length = b.length)
    (hnz : ∀ q ∈ b, q ≠ 0) : mulElems (normalizeObs a b) b = a := by
  induction a generalizing b with
  | nil =>
      cases b with
      | nil => rfl
      | cons y ytl => simp at hlen
  | cons x xtl ih =>
      cases b with
      | nil => simp at hlen
      | cons y ytl =>
          simp only [normalizeObs, mulElems, List.zipWith_cons_cons] at *
          rw [div_mul_cancel₀ x (hnz y (by simp)),
            ih ytl (by simpa using hlen) (fun q hq => hnz q (by simp [hq]))]

/-! ## Claim theorems -/

/-- C9: for the single-quadrant finite converter with action `on` (1),
`convert` returns the supply voltage both for output current `[-1]` and
for `[+1]`, and `i_sup` equals the output current entry when the action
is `on` and `0` when the action is `off` (0), for every output
current. -/
theorem finite_one_quadrant_on_behavior (t u0 x : ℚ) :
    FiniteOneQuadrantConverter.convert ⟨1⟩ t [-1] [u0] = [u0]
    ∧ FiniteOneQuadrantConverter.convert ⟨1⟩ t [1] [u0] = [u0]
    ∧ FiniteOneQuadrantConverter.i_sup ⟨1⟩ [x] = x
    ∧ FiniteOneQuadrantConverter.i_sup ⟨0⟩ [x] = 0 := by
  refine ⟨?_, ?_, ?_, ?_⟩ <;>
    simp [FiniteOneQuadrantConverter.convert, FiniteOneQuadrantConverter.i_sup]

/-- C10: for the single-quadrant finite converter, a negative output
current routes the full supply voltage to the motor regardless of the
switching action (freewheeling diode); in particular action `off` with
negative current yields the supply voltage, and the zero-voltage output
is reachable only with action `off` and non-negative output current. -/
theorem finite_one_quadrant_freewheeling (a : Nat) (t x u0 : ℚ)
    (hneg : x < 0) (hnz : u0 ≠ 0) :
    FiniteOneQuadrantConverter.convert ⟨a⟩ t [x] [u0] = [u0]
    ∧ FiniteOneQuadrantConverter.convert ⟨0⟩ t [x] [u0] = [u0]
    ∧ ∀ (b : Nat) (y : ℚ),
        FiniteOneQuadrantConverter.convert ⟨b⟩ t [y] [u0] = [0] ↔ (b = 0 ∧ 0 ≤ y) := by
  refine ⟨?_, ?_, ?_⟩
  · simp [FiniteOneQuadrantConverter.convert, not_le.mpr hneg]
  · simp [FiniteOneQuadrantConverter.convert, not_le.mpr hneg]
  · intro b y
    by_cases hy : (0 : ℚ) ≤ y
    · simp [FiniteOneQuadrantConverter.convert, hy, hnz, mul_eq_zero]
    · simp [FiniteOneQuadrantConverter.convert, hy, hnz]

/-- Witness for C10 at action 1, output current `[-1]`, supply voltage
`[2]`. -/
theorem finite_one_quadrant_freewheeling_check :
    (-1 : ℚ) < 0 ∧ (2 : ℚ) ≠ 0
    ∧ FiniteOneQuadrantConverter.convert ⟨1⟩ 0 [-1] [2] = [2] :=
  ⟨by norm_num, by norm_num,
    (finite_one_quadrant_freewheeling 1 0 (-1) 2 (by norm_num) (by norm_num)).1⟩

/-- C1: `SCMLSystem.simulate` returns the concatenation of
(load, motor, converter, supply) observations divided elementwise by the
limits vector concatenated in the same order; the raw observation is
recovered from the returned normalized observation by elementwise
multiplication with the limits vector, and `SCMLSystem.reset` emits its
observation through the same concatenate-then-normalize computation. -/
theorem scml_observation_normalization (sys : SCMLSystem)
    (integrate : Integrator) (d : SCMLDyn) (action : Int) (iv : List ℚ)
    (hlen1 : (sys.rawObservation (sys.simulate integrate d action).1.load_state
        (sys.simulate integrate d action).1.motor_state).length = sys.limits.length)
    (hlen2 : (sys.rawObservation (sys.resetSystem iv).1.load_state
        (sys.resetSystem iv).1.motor_state).length = sys.limits.length)
    (hnz : ∀ q ∈ sys.limits, q ≠ 0) :
    (sys.simulate integrate d action).2
      = normalizeObs (sys.rawObservation (sys.simulate integrate d action).1.load_state
          (sys.simulate integrate d action).1.motor_state) sys.limits
    ∧ mulElems (sys.simulate integrate d action).2 sys.limits
      = sys.rawObservation (sys.simulate integrate d action).1.load_state
          (sys.simulate integrate d action).1.motor_state
    ∧ (sys.resetSystem iv).2
      = normalizeObs (sys.rawObservation (sys.resetSystem iv).1.load_state
          (sys.resetSystem iv).1.motor_state) sys.limits
    ∧ mulElems (sys.resetSystem iv).2 sys.limits
      = sys.rawObservation (sys.resetSystem iv).1.load_state
          (sys.resetSystem iv).1.motor_state := by
  refine ⟨rfl, ?_, rfl, ?_⟩
  · rw [show (sys.simulate integrate d action).2
        = normalizeObs (sys.rawObservation (sys.simulate integrate d action).1.load_state
            (sys.simulate integrate d action).1.motor_state) sys.limits from rfl]
    exact mulElems_normalizeObs _ _ hlen1 hnz
  · rw [show (sys.resetSystem iv).2
        = normalizeObs (sys.rawObservation (sys.resetSystem iv).1.load_state
            (sys.resetSystem iv).1.motor_state) sys.limits from rfl]
    exact mulElems_normalizeObs _ _ hlen2 hnz

/-- Witness for C1 on the demo engine: one simulated cycle and one
reset, with concrete limits `[8, 4, 2, 20]`. -/
theorem scml_observation_normalization_check :
    (∀ q ∈ demoSystem.limits, q ≠ 0)
    ∧ mulElems (demoSystem.simulate demoIntegrator demoDyn 0).2 demoSystem.limits
      = demoSystem.rawObservation (demoSystem.simulate demoIntegrator demoDyn 0).1.load_state
          (demoSystem.simulate demoIntegrator demoDyn 0).1.motor_state
    ∧ mulElems (demoSystem.resetSystem [0, 0]).2 demoSystem.limits
      = demoSystem.rawObservation (demoSystem.resetSystem [0, 0]).1.load_state
          (demoSystem.resetSystem [0, 0]).1.motor_state :=
  ⟨by decide,
    (scml_observation_normalization demoSystem demoIntegrator demoDyn 0 [0, 0]
      (by decide) (by decide) (by decide)).2.1,
    (scml_observation_normalization demoSystem demoIntegrator demoDyn 0 [0, 0]
      (by decide) (by decide) (by decide)).2.2.2⟩

/-- C2: the combined ODE right-hand-side equals the concatenation of the
load derivative (mechanical ODE at the load segment and the torque
computed from the motor segment) followed by the motor derivative
(electrical ODE at the motor segment and the angular speed computed from
the load segment), in the same fixed load-then-motor order as the state
vector, whenever the component derivatives have their declared ODE
sizes. -/
theorem scml_system_equation_concat (sys : SCMLSystem) (t : ℚ) (state : List ℚ)
    (hm : (sys.electric_motor.electrical_ode
        (motorSeg sys.mechanical_load.ode_size sys.electric_motor.ode_size state)
        (sys.mechanical_load.get_omega (loadSeg sys.mechanical_load.ode_size state))).length
      = sys.electric_motor.ode_size)
    (hl : (sys.mechanical_load.mechanical_ode t (loadSeg sys.mechanical_load.ode_size state)
        (sys.electric_motor.torque
          (motorSeg sys.mechanical_load.ode_size sys.electric_motor.ode_size state))).length
      = sys.mechanical_load.ode_size) :
    sys.system_equation t state
      = sys.mechanical_load.mechanical_ode t (loadSeg sys.mechanical_load.ode_size state)
          (sys.electric_motor.torque
            (motorSeg sys.mechanical_load.ode_size sys.electric_motor.ode_size state))
        ++ sys.electric_motor.electrical_ode
            (motorSeg sys.mechanical_load.ode_size sys.electric_motor.ode_size state)
            (sys.mechanical_load.get_omega (loadSeg sys.mechanical_load.ode_size state)) := by
  set n_load := sys.mechanical_load.ode_size with hnl
  set n_motor := sys.electric_motor.ode_size with hnm
  set mderiv := sys.electric_motor.electrical_ode (motorSeg n_load n_motor state)
    (sys.mechanical_load.get_omega (loadSeg n_load state)) with hmd
  set lderiv := sys.mechanical_load.mechanical_ode t (loadSeg n_load state)
    (sys.electric_motor.torque (motorSeg n_load n_motor state)) with hld
  show setSlice (setSlice (List.replicate (n_load + n_motor) 0) n_load mderiv) 0 lderiv
      = lderiv ++ mderiv
  have hrep : List.replicate (n_load + n_motor) (0 : ℚ)
      = List.replicate n_load 0 ++ List.replicate n_motor 0 := by
    rw [List.replicate_add]
  have h1 : setSlice (List.replicate (n_load + n_motor) 0) n_load mderiv
      = List.replicate n_load 0 ++ mderiv := by
    rw [hrep]
    have := setSlice_append (List.replicate n_load (0 : ℚ)) (List.replicate n_motor 0) mderiv
      (by simp [hm])
    simp only [List.length_replicate] at this
    rw [this, hm, List.drop_replicate]
    simp
  rw [h1]
  have h2 := setSlice_zero (List.replicate n_load (0 : ℚ) ++ mderiv) lderiv
    (by simp [hl])
  rw [h2, hl]
  simp

/-- Witness for C2 on the demo engine at state `[2, 3]`: the load
segment is `[2]`, the motor segment `[3]`, and the assembled derivative
is the concatenation `[3, 2]` of load and motor derivatives. -/
theorem scml_system_equation_concat_check :
    (demoSystem.electric_motor.electrical_ode
        (motorSeg demoSystem.mechanical_load.ode_size demoSystem.electric_motor.ode_size [2, 3])
        (demoSystem.mechanical_load.get_omega
          (loadSeg demoSystem.mechanical_load.ode_size [2, 3]))).length
      = demoSystem.electric_motor.ode_size
    ∧ demoSystem.system_equation 0 [2, 3]
      = demoSystem.mechanical_load.mechanical_ode 0
          (loadSeg demoSystem.mechanical_load.ode_size [2, 3])
          (demoSystem.electric_motor.torque
            (motorSeg demoSystem.mechanical_load.ode_size demoSystem.electric_motor.ode_size [2, 3]))
        ++ demoSystem.electric_motor.electrical_ode
            (motorSeg demoSystem.mechanical_load.ode_size demoSystem.electric_motor.ode_size [2, 3])
            (demoSystem.mechanical_load.get_omega
              (loadSeg demoSystem.mechanical_load.ode_size [2, 3])) :=
  ⟨by decide, scml_system_equation_concat demoSystem 0 [2, 3] (by decide) (by decide)⟩

/-- C3: the jacobian routine that `__init__` captures into `jac` and
hands to the ODE solver is not executable — on every invocation it
fails at the statement
`system_jac[:load_jac.shape[0], :load_jac.shape[1]] = load_jac`,
because the local name `system_jac` is never bound in the function body
(the preallocated buffer lives in the same-named instance attribute
`self._system_jacobian`, which in turn no longer names the routine after
`__init__` finishes). -/
theorem scml_system_jacobian_name_error (sys : SCMLSystem) (t : ℚ)
    (state : List ℚ) :
    sys.system_jacobian t state
      = Except.error "NameError: name system_jac is not defined" := rfl

/-- C4: when jacobian-based solving is requested but the motor or the
load lacks analytic-jacobian support, construction still succeeds with
a warning and a `None` jacobian; the analytic jacobian is handed to the
solver exactly when the resolved `calc_jacobian` flag and both
capability flags hold, and the default flag opts in exactly when both
components declare support (in which case no warning is possible). -/
theorem scml_init_jacobian_degradation (c : PowerElectronicConverter)
    (m : ElectricMotor) (l : MechanicalLoad) (s : VoltageSupply)
    (tau : ℚ) (cj : Option Bool)
    (h1 : s.supply_shape = c.supply_shape)
    (h2 : c.output_shape = m.input_shape)
    (h3 : m.torque_shape = l.speed_shape) :
    ∃ res : SCMLInitResult,
      SCMLSystem.init c m l s tau cj = Except.ok res
      ∧ res.jacobianPassed
          = (cj.getD (m.HAS_JACOBIAN && l.HAS_JACOBIAN) && m.HAS_JACOBIAN && l.HAS_JACOBIAN)
      ∧ (cj = some true → ¬(m.HAS_JACOBIAN = true ∧ l.HAS_JACOBIAN = true) →
          res.warningEmitted = true ∧ res.jacobianPassed = false)
      ∧ (cj = none →
          res.jacobianPassed = (m.HAS_JACOBIAN && l.HAS_JACOBIAN)
          ∧ res.warningEmitted = false) := by
  refine ⟨{ system := ⟨c, m, l, s, tau⟩
            jacobianPassed :=
              cj.getD (m.HAS_JACOBIAN && l.HAS_JACOBIAN) && m.HAS_JACOBIAN && l.HAS_JACOBIAN
            warningEmitted :=
              cj.getD (m.HAS_JACOBIAN && l.HAS_JACOBIAN)
                && !(cj.getD (m.HAS_JACOBIAN && l.HAS_JACOBIAN)
                      && m.HAS_JACOBIAN && l.HAS_JACOBIAN) }, ?_, rfl, ?_, ?_⟩
  · simp [SCMLSystem.init, h1, h2, h3]
  · intro hcj hnot
    subst hcj
    cases hm : m.HAS_JACOBIAN <;> cases hl : l.HAS_JACOBIAN <;> simp_all
  · intro hcj
    subst hcj
    cases hm : m.HAS_JACOBIAN <;> cases hl : l.HAS_JACOBIAN <;> simp_all

/-- Witness for C4: the demo components with a load lacking jacobian
support and jacobian solving explicitly requested. -/
theorem scml_init_jacobian_degradation_check :
    demoSupply.supply_shape = demoConverter.supply_shape
    ∧ ∃ res : SCMLInitResult,
        SCMLSystem.init demoConverter demoMotor demoLoadNoJac demoSupply 1 (some true)
          = Except.ok res
        ∧ res.jacobianPassed
            = ((some true).getD (demoMotor.HAS_JACOBIAN && demoLoadNoJac.HAS_JACOBIAN)
                && demoMotor.HAS_JACOBIAN && demoLoadNoJac.HAS_JACOBIAN)
        ∧ (some true = some true →
            ¬(demoMotor.HAS_JACOBIAN = true ∧ demoLoadNoJac.HAS_JACOBIAN = true) →
            res.warningEmitted = true ∧ res.jacobianPassed = false)
        ∧ ((some true : Option Bool) = none →
            res.jacobianPassed = (demoMotor.HAS_JACOBIAN && demoLoadNoJac.HAS_JACOBIAN)
            ∧ res.warningEmitted = false) :=
  ⟨by decide,
    scml_init_jacobian_degradation demoConverter demoMotor demoLoadNoJac demoSupply 1
      (some true) (by decide) (by decide) (by decide)⟩

/-- C7: `SCMLSystem` construction succeeds exactly when all three
shape-compatibility assertions hold (supply shape matches the converter
supply side, converter output shape matches the motor input shape, and
motor torque shape matches the load speed shape); violating any one of
them aborts construction. -/
theorem scml_init_ok_iff_shapes (c : PowerElectronicConverter)
    (m : ElectricMotor) (l : MechanicalLoad) (s : VoltageSupply)
    (tau : ℚ) (cj : Option Bool) :
    exceptOk (SCMLSystem.init c m l s tau cj) = true
      ↔ (s.supply_shape = c.supply_shape
          ∧ c.output_shape = m.input_shape
          ∧ m.torque_shape = l.speed_shape) := by
  by_cases h1 : s.supply_shape = c.supply_shape <;>
    by_cases h2 : c.output_shape = m.input_shape <;>
      by_cases h3 : m.torque_shape = l.speed_shape <;>
        simp [SCMLSystem.init, exceptOk, h1, h2, h3]

theorem step_of_done (env : Env) (s : EnvDyn) (a : Int) (h : s.done = true) :
    env.step s a
      = (s, Except.error "A reset is required before the environment can perform further steps") := by
  simp [Env.step, h]

/-- C5: the `done` flag is set on construction; `step` with the flag set
(before any reset, or after a terminating step) fails with the usage
error and leaves the environment state unchanged; `reset` is what clears
the flag. -/
theorem env_step_requires_reset (env : Env) (s : EnvDyn) (a : Int)
    (h : s.done = true) :
    (env.step s a).1 = s
    ∧ (env.step s a).2
      = Except.error "A reset is required before the environment can perform further steps"
    ∧ Env.initialDyn.done = true
    ∧ ((env.reset s).1).done = false := by
  refine ⟨?_, ?_, rfl, rfl⟩ <;> simp [Env.step, h]

/-- Witness for C5 on the demo environment in its post-construction
state. -/
theorem env_step_requires_reset_check :
    Env.initialDyn.done = true
    ∧ (demoEnv.step Env.initialDyn 0).1 = Env.initialDyn
    ∧ (demoEnv.step Env.initialDyn 0).2
      = Except.error "A reset is required before the environment can perform further steps" :=
  ⟨rfl, (env_step_requires_reset demoEnv Env.initialDyn 0 rfl).1,
    (env_step_requires_reset demoEnv Env.initialDyn 0 rfl).2.1⟩

/-- C6: every `step` call that completes returns `done = true` exactly
when the violation degree computed by the constraint monitor from the
state simulated in that same cycle is at least 1; the same flag is
stored in the environment and gates the following `step` call. -/
theorem env_step_done_iff_violation (env : Env) (s : EnvDyn) (a : Int)
    (h : s.done = false) :
    ∃ r : StepResult,
      (env.step s a).2 = Except.ok r
      ∧ (r.done = true ↔ (1 : ℚ) ≤ env.checkConstraints (env.physSimulate s.physState a))
      ∧ ((env.step s a).1).done = r.done
      ∧ (r.done = true → ∀ a2 : Int,
          (env.step (env.step s a).1 a2).2
            = Except.error "A reset is required before the environment can perform further steps") := by
  refine ⟨{ state := env.physSimulate s.physState a
            ref_next := env.getReferenceObservation (env.physSimulate s.physState a)
            reward := env.rewardFn (env.physSimulate s.physState a)
              (env.getReference (env.physSimulate s.physState a)) s.k a
              (env.checkConstraints (env.physSimulate s.physState a))
            done := decide ((1 : ℚ) ≤ env.checkConstraints (env.physSimulate s.physState a)) },
      ?_, ?_, ?_, ?_⟩
  · simp [Env.step, h]
  · simp
  · simp [Env.step, h]
  · intro hdone a2
    have h1 : ((env.step s a).1).done = true := by
      simpa [Env.step, h] using hdone
    rw [step_of_done env (env.step s a).1 a2 h1]

/-- Witness for C6: after resetting the demo environment, one step
simulates the state `[1]`, whose violation degree is exactly 1, so the
step terminates the episode and the next step is rejected. -/
theorem env_step_done_iff_violation_check :
    ((demoEnv.reset Env.initialDyn).1).done = false
    ∧ ∃ r : StepResult,
        (demoEnv.step (demoEnv.reset Env.initialDyn).1 0).2 = Except.ok r
        ∧ (r.done = true
            ↔ (1 : ℚ) ≤ demoEnv.checkConstraints
                (demoEnv.physSimulate ((demoEnv.reset Env.initialDyn).1).physState 0)) :=
  ⟨rfl,
    match env_step_done_iff_violation demoEnv (demoEnv.reset Env.initialDyn).1 0 rfl with
    | ⟨r, hok, hiff, _, _⟩ => ⟨r, hok, hiff⟩⟩

/-- C8: seeding with the same integer derives the identical tree of
child entropies (environment children in the fixed order physical
system, reference generator, reward function, constraint monitor,
callbacks; engine grandchildren in the fixed order supply, converter,
motor, load, solver), independently of OS entropy; the root entropy
returned by `seed` is exactly the one used for the derivation, so a run
seeded from OS entropy is reproduced by replaying the returned value. -/
theorem env_seed_deterministic_replayable (s os1 os2 k : Nat) :
    envSeed (some s) os1 k = envSeed (some s) os2 k
    ∧ (envSeed (some s) os1 k).root = s
    ∧ (envSeed none os1 k).root = os1
    ∧ envSeed (some ((envSeed none os1 k).root)) os2 k = envSeed none os1 k
    ∧ (envSeed (some s) os1 k).physicalChildren
      = scmlChildEntropies ((envSeed (some s) os1 k).physicalEntropy) := by
  exact ⟨rfl, rfl, rfl, rfl, rfl⟩

end GymElectricMotor
